import Mathlib

/-!
Verification of the Pterodactyl-to-Google-Drive backup orchestrator.

The JavaScript sources (index.js plus the variant script shipped alongside
it) are shallowly embedded below: each embedded definition mirrors one
source function, with machine integers modelled as Nat or Int and fallible
steps modelled by an explicit failure oracle.  Theorems about the embedded
definitions settle the specification claims.
-/

namespace PteroBackup

/-! ### Artifacts and retention rotation

An artifact at a storage location.  `createdAt` is the millisecond
timestamp of `created_at` / `createdTime`; `id` stands for the uuid or
Drive file id. -/

structure Artifact where
  id : Nat
  createdAt : Int
deriving DecidableEq, Repr

/-- Sorted newest-first: the order in which `drive.files.list` returns
files when called with orderBy createdTime desc, as both
`cleanupOldBackups` implementations do. -/
def NewestFirst (l : List Artifact) : Prop :=
  l.Pairwise (fun a b => b.createdAt ≤ a.createdAt)

/-- The deletion set computed by `cleanupOldBackups` (both variants):
`if (files.length > maxBackups) filesToDelete = files.slice(maxBackups)`. -/
def cleanupFilesToDelete (files : List Artifact) (maxBackups : Nat) : List Artifact :=
  if maxBackups < files.length then files.drop maxBackups else []

/-- The files remaining in the folder after `cleanupOldBackups` has deleted
its deletion set. -/
def cleanupFilesKept (files : List Artifact) (maxBackups : Nat) : List Artifact :=
  if maxBackups < files.length then files.take maxBackups else files

/-- `backups.sort((a, b) => new Date(a.createdAt) - new Date(b.createdAt))`:
ascending sort by creation time, as in `deleteOldestPteroBackup` /
`deleteOldestBackupIfLimitReached`. -/
def sortOldestFirst (backups : List Artifact) : List Artifact :=
  List.insertionSort (fun a b => a.createdAt ≤ b.createdAt) backups

/-- The deletion set of the eager pre-creation rotation at the origin
system (`deleteOldestPteroBackup` in index.js, threshold
`maxBackupsOnServer = 2`; `deleteOldestBackupIfLimitReached` in the variant
script, threshold 3): when the current count reaches the limit it deletes
exactly the single oldest backup (`backups[0]` after the ascending sort),
nothing more. -/
def deleteOldestPteroBackupDeletes (backups : List Artifact) (maxOnServer : Nat) :
    List Artifact :=
  if maxOnServer ≤ backups.length then (sortOldestFirst backups).take 1 else []

instance artifactLeTotal :
    IsTotal Artifact (fun a b => a.createdAt ≤ b.createdAt) :=
  ⟨fun a b => le_total a.createdAt b.createdAt⟩

instance artifactLeTrans :
    IsTrans Artifact (fun a b => a.createdAt ≤ b.createdAt) :=
  ⟨fun _ _ _ hab hbc => le_trans hab hbc⟩

/-! ### The rotation deletion loop

`cleanupOldBackups` deletes its deletion set with
`for (const file of filesToDelete) await drive.files.delete(...)`
and no try/catch around the body, so the first failing delete throws out
of the loop.  `failsOn` is the oracle saying which deletions fail.  The
result is the list of deletions actually attempted, in order, and whether
the loop threw. -/

def runDeleteLoop (failsOn : Artifact → Bool) : List Artifact → List Artifact × Bool
  | [] => ([], false)
  | f :: rest =>
    if failsOn f then ([f], true)
    else
      let r := runDeleteLoop failsOn rest
      (f :: r.1, r.2)

/-- One run of `cleanupOldBackups`: compute the deletion set, then delete
it with the unguarded loop. -/
def cleanupOldBackupsRun (files : List Artifact) (maxBackups : Nat)
    (failsOn : Artifact → Bool) : List Artifact × Bool :=
  runDeleteLoop failsOn (cleanupFilesToDelete files maxBackups)

/-- `deleteOldestBackupIfLimitReached` (variant script, threshold 3) wraps
its single delete in try/catch that logs and RE-throws, so it throws iff
that delete fails. -/
def deleteOldestIfLimitThrows (backups : List Artifact) (failsOn : Artifact → Bool) : Bool :=
  (runDeleteLoop failsOn (deleteOldestPteroBackupDeletes backups 3)).2

/-! ### The backup cycle state machine

`runBackupCycle` is embedded as a function from a failure oracle to the
observable outcome of the cycle.  `failAt = some s` means step `s` throws
when (and only when) it is executed; `failAt = none` is a cycle where
every remote call succeeds.  `deleteBackupFromPtero` swallows its own
errors and `fs.unlinkSync` is modelled as reliable, so neither is a
failure point. -/

inductive CStep
  | createBackup
  | waitCompletion
  | getUrl
  | download
  | uploadMain
  | uploadDays
  | rotateDays
  | rotateMain
deriving DecidableEq, Repr, Fintype

inductive Action
  | createBackup
  | pollWait
  | getUrl
  | download
  | uploadMain
  | rotateMain
  | uploadDays
  | rotateDays
  | deleteOrigin
  | unlinkStaging
deriving DecidableEq, Repr

structure CycleResult where
  actions : List Action
  stagingExists : Bool
  success : Bool
  archiveEntered : Bool
deriving DecidableEq, Repr

/-- Number of issued origin-system delete calls for the cycle's backup id. -/
def CycleResult.pteroDeleteCalls (r : CycleResult) : Nat :=
  r.actions.count Action.deleteOrigin

/-- The catch block of `runBackupCycle` (both variants):
`if (backupId) await deleteBackupFromPtero(backupId);`
`if (localPath && fs.existsSync(localPath)) fs.unlinkSync(localPath);`
then the cycle returns with its primary result being failure. -/
def catchBlock (acts : List Action) (hasId stagingOnDisk archive : Bool) : CycleResult :=
  { actions := (acts ++ (if hasId then [Action.deleteOrigin] else []))
      ++ (if stagingOnDisk then [Action.unlinkStaging] else [])
    stagingExists := false
    success := false
    archiveEntered := archive }

/-- `isDailyBackupTime` in index.js: the orchestrator reads the IST wall
clock and tests for 23:59. -/
def isDailyBackupTime (hour minute : Nat) : Bool :=
  hour == 23 && minute == 59

/-- Tail of the index.js cycle after the daily branch: unconditional
`deleteBackupFromPtero` (which never throws), then `cleanupOldBackups` on
the main folder (which CAN throw, landing in the catch block after the
origin delete already happened), then unlink of the staging file. -/
def idxFinish (acts : List Action) (archive : Bool) (failAt : Option CStep) : CycleResult :=
  let acts := acts ++ [Action.deleteOrigin]
  if failAt = some CStep.rotateMain then catchBlock acts true true archive
  else
    { actions := acts ++ [Action.rotateMain, Action.unlinkStaging]
      stagingExists := false
      success := true
      archiveEntered := archive }

/-- index.js `runBackupCycle` with the daily decision already taken
(`daily = isDailyBackupTime()`).  Step order: createBackup (incl. the
eager origin rotation), waitForBackupCompletion, getBackupDownloadUrl,
downloadBackup (a failing pipeline leaves the partial staging file on
disk), uploadToGoogleDrive, then if daily: uploadToDaysFolder and
cleanupOldDailyBackups (both no-ops returning early when the days folder
id is not configured), then deleteBackupFromPtero, cleanupOldBackups,
unlink. -/
def runCycleIdxCore (daily daysCfg : Bool) (failAt : Option CStep) : CycleResult :=
  if failAt = some CStep.createBackup then
    { actions := [], stagingExists := false, success := false, archiveEntered := false }
  else if failAt = some CStep.waitCompletion then
    catchBlock [Action.createBackup] true false false
  else if failAt = some CStep.getUrl then
    catchBlock [Action.createBackup, Action.pollWait] true false false
  else if failAt = some CStep.download then
    catchBlock [Action.createBackup, Action.pollWait, Action.getUrl] true true false
  else if failAt = some CStep.uploadMain then
    catchBlock [Action.createBackup, Action.pollWait, Action.getUrl, Action.download] true true false
  else
    let base := [Action.createBackup, Action.pollWait, Action.getUrl, Action.download,
      Action.uploadMain]
    if daily then
      if daysCfg then
        if failAt = some CStep.uploadDays then catchBlock base true true true
        else if failAt = some CStep.rotateDays then
          catchBlock (base ++ [Action.uploadDays]) true true true
        else idxFinish (base ++ [Action.uploadDays, Action.rotateDays]) true failAt
      else idxFinish base true failAt
    else idxFinish base false failAt

/-- index.js `runBackupCycle` proper: the archive decision is computed
inside the orchestrator from the wall clock. -/
def runCycleIdx (hour minute : Nat) (daysCfg : Bool) (failAt : Option CStep) : CycleResult :=
  runCycleIdxCore (isDailyBackupTime hour minute) daysCfg failAt

/-- Tail of the variant-script cycle after the daily branch:
`deleteBackupFromPtero` then unlink, neither of which throws, then
success. -/
def partFinish (acts : List Action) (archive : Bool) : CycleResult :=
  { actions := acts ++ [Action.deleteOrigin, Action.unlinkStaging]
    stagingExists := false
    success := true
    archiveEntered := archive }

/-- Variant-script `runBackupCycle(isDailyBackup = false)`: the archive
decision arrives as an explicit boolean parameter.  Step order:
createBackup, waitForBackupCompletion, getBackupDownloadUrl,
downloadBackup, uploadToGoogleDrive(main), cleanupOldBackups(main), then
if `isDailyBackup && daysFolderId`: uploadToGoogleDrive(days) and
cleanupOldBackups(days), then deleteBackupFromPtero and unlink. -/
def runCyclePartCore (isDailyBackup daysCfg : Bool) (failAt : Option CStep) : CycleResult :=
  if failAt = some CStep.createBackup then
    { actions := [], stagingExists := false, success := false, archiveEntered := false }
  else if failAt = some CStep.waitCompletion then
    catchBlock [Action.createBackup] true false false
  else if failAt = some CStep.getUrl then
    catchBlock [Action.createBackup, Action.pollWait] true false false
  else if failAt = some CStep.download then
    catchBlock [Action.createBackup, Action.pollWait, Action.getUrl] true true false
  else if failAt = some CStep.uploadMain then
    catchBlock [Action.createBackup, Action.pollWait, Action.getUrl, Action.download] true true false
  else if failAt = some CStep.rotateMain then
    catchBlock [Action.createBackup, Action.pollWait, Action.getUrl, Action.download,
      Action.uploadMain] true true false
  else
    let base := [Action.createBackup, Action.pollWait, Action.getUrl, Action.download,
      Action.uploadMain, Action.rotateMain]
    if isDailyBackup && daysCfg then
      if failAt = some CStep.uploadDays then catchBlock base true true true
      else if failAt = some CStep.rotateDays then
        catchBlock (base ++ [Action.uploadDays]) true true true
      else partFinish (base ++ [Action.uploadDays, Action.rotateDays]) true
    else partFinish base false

/-! ### The completion poll loop

`waitForBackupCompletion` (identical in both variants).  A poll trace is
the finite list of loop iterations the run would observe: `t` is the
value of `Date.now() - startTime` in milliseconds at the top of the
iteration, and `status`/`completedAt` is what the status GET of that
iteration returns.  `elapsedSec` is `Math.round((Date.now() - startTime)
/ 1000)`. -/

inductive PStatus
  | inProgress
  | success
  | failed
deriving DecidableEq, Repr

structure Obs where
  t : Nat
  status : PStatus
  completedAt : Bool
deriving DecidableEq, Repr

def pollTimeoutMs : Nat := 900000

def graceSec : Nat := 60

def elapsedSec (t : Nat) : Nat := (t + 500) / 1000

inductive PollResult
  | completed
  | timedOut
  | backupFailed
  | exhausted
deriving DecidableEq, Repr

/-- The result of the while-true loop on a given trace.  Branches in
source order: the timeout guard before the status read; return on
`is_successful === true && completed_at`; sleep-and-continue on
`is_successful === null || (is_successful === false && elapsed <= 60)`;
throw on the remaining `is_successful === false`; otherwise
(`is_successful === true` with `completed_at` missing) no branch matches
and the loop re-reads immediately. -/
def pollLoop : List Obs → PollResult
  | [] => PollResult.exhausted
  | o :: rest =>
    if pollTimeoutMs < o.t then PollResult.timedOut
    else if o.status = PStatus.success ∧ o.completedAt = true then PollResult.completed
    else if o.status = PStatus.inProgress ∨
        (o.status = PStatus.failed ∧ elapsedSec o.t ≤ graceSec) then
      pollLoop rest
    else if o.status = PStatus.failed then PollResult.backupFailed
    else pollLoop rest

inductive PEvent
  | read (t : Nat)
  | sleep
deriving DecidableEq, Repr

/-- The sequence of status reads and interval sleeps the loop performs on
a trace, mirroring `pollLoop` branch for branch. -/
def pollEvents : List Obs → List PEvent
  | [] => []
  | o :: rest =>
    if pollTimeoutMs < o.t then []
    else if o.status = PStatus.success ∧ o.completedAt = true then [PEvent.read o.t]
    else if o.status = PStatus.inProgress ∨
        (o.status = PStatus.failed ∧ elapsedSec o.t ≤ graceSec) then
      PEvent.read o.t :: PEvent.sleep :: pollEvents rest
    else if o.status = PStatus.failed then [PEvent.read o.t]
    else PEvent.read o.t :: pollEvents rest

def isRead : PEvent → Bool
  | PEvent.read _ => true
  | PEvent.sleep => false

/-- True when no status read directly follows another status read with no
suspension between them. -/
def noAdjacentReads : List PEvent → Bool
  | [] => true
  | _ :: [] => true
  | a :: b :: rest => !(isRead a && isRead b) && noAdjacentReads (b :: rest)

/-! ### Artifact naming

The primary storage-tier name is built by
`dayjs().tz().format('DD-MMM-hA') + '.tar.gz'`.  A wall-clock instant in
IST is embedded field by field; the dayjs tokens used are DD (zero-padded
day), MMM (English month abbreviation), h (12-hour value, NO zero
padding; the padded token would be hh) and A (AM/PM). -/

structure WallClock where
  day : Nat
  month : Nat
  year : Nat
  hour : Nat
  minute : Nat
  second : Nat
deriving DecidableEq, Repr

def pad2 (n : Nat) : String :=
  if n < 10 then "0" ++ toString n else toString n

def monthAbbrev : Nat → String
  | 1 => "Jan"
  | 2 => "Feb"
  | 3 => "Mar"
  | 4 => "Apr"
  | 5 => "May"
  | 6 => "Jun"
  | 7 => "Jul"
  | 8 => "Aug"
  | 9 => "Sep"
  | 10 => "Oct"
  | 11 => "Nov"
  | 12 => "Dec"
  | _ => ""

def hour12 (h : Nat) : Nat :=
  if h % 12 = 0 then 12 else h % 12

def meridiem (h : Nat) : String :=
  if h < 12 then "AM" else "PM"

/-- The primary storage-tier artifact name the code produces:
format DD-MMM-hA plus the extension. -/
def mainFileName (c : WallClock) : String :=
  pad2 c.day ++ "-" ++ monthAbbrev c.month ++ "-" ++ toString (hour12 c.hour)
    ++ meridiem c.hour ++ ".tar.gz"

/-- Modelled from the claim text: the same grammar but with a two-digit
12-hour field, as the example 29-Nov-02PM.tar.gz demands. -/
def specMainNameClaimed (c : WallClock) : String :=
  pad2 c.day ++ "-" ++ monthAbbrev c.month ++ "-" ++ pad2 (hour12 c.hour)
    ++ meridiem c.hour ++ ".tar.gz"

/-! ## Claim theorems -/

/-- C1 counterexample: the eager pre-creation rotation at the origin
system does not delete `max(0, L - M)` artifacts.  With `L = 2` backups
and `maxBackupsOnServer = M = 2` (the index.js configuration), the claim
demands zero deletions, but `deleteOldestPteroBackup` deletes one backup
(the code fires whenever `length >= max` and always deletes exactly the
single oldest). -/
theorem c1_counterexample :
    ((deleteOldestPteroBackupDeletes [Artifact.mk 0 1000, Artifact.mk 1 2000] 2).length : Int)
      ≠ max 0 ((([Artifact.mk 0 1000, Artifact.mk 1 2000] : List Artifact).length : Int) - 2) := by
  decide

/-- C1 (amended): the storage-tier lazy rotation does satisfy the claimed
invariant — on a newest-first listing of length L with limit M it deletes
exactly `max(0, L - M)` artifacts, all of them no newer than every kept
artifact, leaving exactly `min(L, M)` — but the origin-system eager
rotation instead deletes exactly ONE artifact (the oldest) whenever the
count has reached `maxBackupsOnServer`, and none otherwise, no matter how
far the count exceeds the limit. -/
theorem c1_theorem :
    (∀ (files : List Artifact) (maxB : Nat),
        ((cleanupFilesToDelete files maxB).length : Int)
          = max 0 ((files.length : Int) - (maxB : Int)))
    ∧ (∀ (files : List Artifact) (maxB : Nat),
        (cleanupFilesKept files maxB).length = min files.length maxB)
    ∧ (∀ (files : List Artifact) (maxB : Nat), NewestFirst files →
        ∀ d ∈ cleanupFilesToDelete files maxB, ∀ k ∈ cleanupFilesKept files maxB,
          d.createdAt ≤ k.createdAt)
    ∧ (∀ (backups : List Artifact) (maxOnServer : Nat), 1 ≤ maxOnServer →
        (deleteOldestPteroBackupDeletes backups maxOnServer).length
          = if maxOnServer ≤ backups.length then 1 else 0)
    ∧ (∀ (backups : List Artifact) (maxOnServer : Nat),
        ∀ d ∈ deleteOldestPteroBackupDeletes backups maxOnServer,
          d ∈ backups ∧ ∀ b ∈ backups, d.createdAt ≤ b.createdAt) := by
  refine ⟨?_, ?_, ?_, ?_, ?_⟩
  · intro files maxB
    unfold cleanupFilesToDelete
    split
    · simp only [List.length_drop]
      omega
    · simp only [List.length_nil]
      omega
  · intro files maxB
    unfold cleanupFilesKept
    split
    · simp only [List.length_take]
      omega
    · omega
  · intro files maxB hs d hd k hk
    unfold cleanupFilesToDelete at hd
    unfold cleanupFilesKept at hk
    by_cases h : maxB < files.length
    · rw [if_pos h] at hd hk
      have hp : (files.take maxB ++ files.drop maxB).Pairwise
          (fun a b => b.createdAt ≤ a.createdAt) := by
        rw [List.take_append_drop]
        exact hs
      exact (List.pairwise_append.mp hp).2.2 k hk d hd
    · rw [if_neg h] at hd
      simp at hd
  · intro backups maxOnServer h1
    unfold deleteOldestPteroBackupDeletes
    split
    · rename_i h2
      have hlen : (sortOldestFirst backups).length = backups.length :=
        (List.perm_insertionSort _ backups).length_eq
      rw [List.length_take, hlen]
      omega
    · rfl
  · intro backups maxOnServer d hd
    unfold deleteOldestPteroBackupDeletes at hd
    by_cases h2 : maxOnServer ≤ backups.length
    case neg =>
      rw [if_neg h2] at hd
      simp at hd
    case pos =>
      rw [if_pos h2] at hd
      have hmem : d ∈ sortOldestFirst backups := List.mem_of_mem_take hd
      have hperm : List.Perm (sortOldestFirst backups) backups :=
        List.perm_insertionSort _ backups
      refine ⟨hperm.mem_iff.mp hmem, ?_⟩
      intro b hb
      have hsorted : List.Sorted (fun a b : Artifact => a.createdAt ≤ b.createdAt)
          (sortOldestFirst backups) := List.sorted_insertionSort _ backups
      have hb2 : b ∈ sortOldestFirst backups := hperm.mem_iff.mpr hb
      cases hsl : sortOldestFirst backups with
      | nil =>
        rw [hsl] at hmem
        simp at hmem
      | cons x rest =>
        rw [hsl] at hd hb2 hsorted
        simp at hd
        subst hd
        rcases List.mem_cons.mp hb2 with hbx | hbr
        · rw [hbx]
        · exact (List.sorted_cons.mp hsorted).1 b hbr

/-- C1 witness: the amended theorem applied at the spec scenario
`[t=400, t=300, t=200, t=100]` with `maxCount = 3` (tier part) and at a
two-element origin list with `maxBackupsOnServer = 2` (origin part). -/
theorem c1_witness :
    (Artifact.mk 1 100).createdAt ≤ (Artifact.mk 4 400).createdAt
    ∧ (deleteOldestPteroBackupDeletes [Artifact.mk 0 1000, Artifact.mk 1 2000] 2).length
        = if 2 ≤ ([Artifact.mk 0 1000, Artifact.mk 1 2000] : List Artifact).length then 1 else 0 :=
  ⟨c1_theorem.2.2.1
      [Artifact.mk 4 400, Artifact.mk 3 300, Artifact.mk 2 200, Artifact.mk 1 100] 3
      (by unfold NewestFirst; decide)
      (Artifact.mk 1 100) (by decide) (Artifact.mk 4 400) (by decide),
    c1_theorem.2.2.2.1 [Artifact.mk 0 1000, Artifact.mk 1 2000] 2 (by decide)⟩

/-- C2 counterexample: index.js runs `cleanupOldBackups` on the main
folder AFTER the unconditional `deleteBackupFromPtero`; when that rotation
throws, control lands in the catch block, which sees `backupId` set and
issues a second delete call for the same id — two delete calls in one
cycle, not exactly one. -/
theorem c2_counterexample :
    (runCycleIdx 10 0 false (some CStep.rotateMain)).pteroDeleteCalls ≠ 1
    ∧ (runCycleIdx 10 0 false (some CStep.rotateMain)).pteroDeleteCalls = 2 := by
  decide

/-- C2 (amended): whenever a backup id was obtained, at least one origin
delete call is always issued.  The variant script issues exactly one on
every outcome; index.js issues exactly one unless the main-folder
rotation (which it runs after the origin delete) throws, in which case
the catch block issues a second, idempotent delete — never zero calls,
never more than two. -/
theorem c2_theorem : ∀ f : Option CStep, f ≠ some CStep.createBackup →
    (∀ d cfg : Bool, (runCyclePartCore d cfg f).pteroDeleteCalls = 1)
    ∧ (∀ (hour minute : Nat) (cfg : Bool),
        1 ≤ (runCycleIdx hour minute cfg f).pteroDeleteCalls
        ∧ (runCycleIdx hour minute cfg f).pteroDeleteCalls ≤ 2
        ∧ ((runCycleIdx hour minute cfg f).pteroDeleteCalls = 2
            ↔ f = some CStep.rotateMain)) := by
  have aux1 : ∀ (f : Option CStep) (d cfg : Bool), f = some CStep.createBackup ∨
      (runCyclePartCore d cfg f).pteroDeleteCalls = 1 := by decide
  have aux2 : ∀ (f : Option CStep) (b cfg : Bool), f = some CStep.createBackup ∨
      (1 ≤ (runCycleIdxCore b cfg f).pteroDeleteCalls
        ∧ (runCycleIdxCore b cfg f).pteroDeleteCalls ≤ 2
        ∧ ((runCycleIdxCore b cfg f).pteroDeleteCalls = 2
            ↔ f = some CStep.rotateMain)) := by decide
  intro f hf
  refine ⟨fun d cfg => ?_, fun hour minute cfg => ?_⟩
  · rcases aux1 f d cfg with h | h
    · exact absurd h hf
    · exact h
  · rcases aux2 f (isDailyBackupTime hour minute) cfg with h | h
    · exact absurd h hf
    · exact h

/-- C2 witness: the amended theorem applied to a cycle whose main upload
throws: the variant script still issues exactly one origin delete. -/
theorem c2_witness :
    (runCyclePartCore true true (some CStep.uploadMain)).pteroDeleteCalls = 1 :=
  (c2_theorem (some CStep.uploadMain) (by decide)).1 true true

/-- C3: staging cleanliness holds.  For every failure point (or none) and
every daily/config combination, both cycle variants return with no
staging file on disk — the success path unlinks it and the catch block
unlinks it on every failure entered after it was created, including
failures between download and the final cleanup. -/
theorem c3_theorem :
    (∀ (hour minute : Nat) (cfg : Bool) (f : Option CStep),
        (runCycleIdx hour minute cfg f).stagingExists = false)
    ∧ (∀ (d cfg : Bool) (f : Option CStep),
        (runCyclePartCore d cfg f).stagingExists = false) := by
  have aux1 : ∀ (b cfg : Bool) (f : Option CStep),
      (runCycleIdxCore b cfg f).stagingExists = false := by decide
  have aux2 : ∀ (d cfg : Bool) (f : Option CStep),
      (runCyclePartCore d cfg f).stagingExists = false := by decide
  exact ⟨fun hour minute cfg f => aux1 (isDailyBackupTime hour minute) cfg f, aux2⟩

/-- Characterization of the unguarded deletion loop: it attempts the
prefix of deletions up to and including the first failing one, and throws
iff some deletion fails. -/
theorem runDeleteLoop_spec (failsOn : Artifact → Bool) (l : List Artifact) :
    runDeleteLoop failsOn l =
      (l.takeWhile (fun f => !failsOn f) ++ (l.dropWhile (fun f => !failsOn f)).take 1,
        l.any failsOn) := by
  induction l with
  | nil => rfl
  | cons f rest ih =>
    by_cases h : failsOn f = true
    · simp [runDeleteLoop, h, List.takeWhile_cons, List.dropWhile_cons]
    · simp only [Bool.not_eq_true] at h
      simp [runDeleteLoop, h, List.takeWhile_cons, List.dropWhile_cons, ih]

/-- C4 counterexample: the rotation deletion loop has no per-deletion
error handling.  On the five-file listing with limit 3, the deletion set
is the two oldest files; when deleting the first of them fails, the
second is never attempted and the loop throws — and a thrown main-folder
rotation makes the surrounding cycle report failure instead of leaving
its primary result untouched. -/
theorem c4_counterexample :
    (cleanupOldBackupsRun
        [Artifact.mk 5 500, Artifact.mk 4 400, Artifact.mk 3 300,
          Artifact.mk 2 200, Artifact.mk 1 100] 3 (fun f => f.id == 2)).2 = true
    ∧ Artifact.mk 1 100 ∈ cleanupFilesToDelete
        [Artifact.mk 5 500, Artifact.mk 4 400, Artifact.mk 3 300,
          Artifact.mk 2 200, Artifact.mk 1 100] 3
    ∧ Artifact.mk 1 100 ∉ (cleanupOldBackupsRun
        [Artifact.mk 5 500, Artifact.mk 4 400, Artifact.mk 3 300,
          Artifact.mk 2 200, Artifact.mk 1 100] 3 (fun f => f.id == 2)).1
    ∧ (runCyclePartCore false true (some CStep.rotateMain)).success = false := by
  decide

/-- C4 (amended): a failed rotation deletion is not swallowed.  The
deletion loop attempts deletions in listing order only up to and
including the first failing one and throws exactly when some deletion in
the set fails; a throwing main-folder rotation turns the surrounding
cycle's primary result into failure in both variants. -/
theorem c4_theorem :
    (∀ (failsOn : Artifact → Bool) (files : List Artifact) (maxB : Nat),
        (cleanupOldBackupsRun files maxB failsOn).2
          = (cleanupFilesToDelete files maxB).any failsOn)
    ∧ (∀ (failsOn : Artifact → Bool) (files : List Artifact) (maxB : Nat),
        (cleanupOldBackupsRun files maxB failsOn).1
          = (cleanupFilesToDelete files maxB).takeWhile (fun f => !failsOn f)
            ++ ((cleanupFilesToDelete files maxB).dropWhile (fun f => !failsOn f)).take 1)
    ∧ (∀ b cfg : Bool, (runCycleIdxCore b cfg (some CStep.rotateMain)).success = false)
    ∧ (∀ b cfg : Bool, (runCyclePartCore b cfg (some CStep.rotateMain)).success = false) := by
  refine ⟨?_, ?_, by decide, by decide⟩
  · intro failsOn files maxB
    unfold cleanupOldBackupsRun
    rw [runDeleteLoop_spec]
  · intro failsOn files maxB
    unfold cleanupOldBackupsRun
    rw [runDeleteLoop_spec]

/-- C5: a `failed` status reading is fatal only past the 60-second grace
window, and every trace whose `failed` readings all fall inside the grace
window, whose readings stay inside the timeout budget, and which
eventually reports succeeded-with-completedAt, ends in completion (the
cycle proceeds to download) rather than aborting. -/
theorem c5_theorem :
    (∀ trace : List Obs, pollLoop trace = PollResult.backupFailed →
        ∃ o ∈ trace, o.status = PStatus.failed ∧ graceSec < elapsedSec o.t)
    ∧ (∀ trace : List Obs,
        (∀ o ∈ trace, o.t ≤ pollTimeoutMs) →
        (∀ o ∈ trace, o.status = PStatus.failed → elapsedSec o.t ≤ graceSec) →
        (∃ o ∈ trace, o.status = PStatus.success ∧ o.completedAt = true) →
        pollLoop trace = PollResult.completed) := by
  constructor
  · intro trace
    induction trace with
    | nil => intro h; simp [pollLoop] at h
    | cons o rest ih =>
      intro h
      simp only [pollLoop] at h
      split_ifs at h with h1 h2 h3 h4
      · obtain ⟨o2, hm, hp⟩ := ih h
        exact ⟨o2, List.mem_cons_of_mem o hm, hp⟩
      · refine ⟨o, List.mem_cons_self o rest, h4, ?_⟩
        by_contra hle
        exact h3 (Or.inr ⟨h4, le_of_not_lt hle⟩)
      · obtain ⟨o2, hm, hp⟩ := ih h
        exact ⟨o2, List.mem_cons_of_mem o hm, hp⟩
  · intro trace
    induction trace with
    | nil =>
      intro _ _ hex
      simp at hex
    | cons o rest ih =>
      intro hT hG hex
      have hto : ¬ pollTimeoutMs < o.t := not_lt.mpr (hT o (List.mem_cons_self o rest))
      simp only [pollLoop]
      rw [if_neg hto]
      by_cases hsc : o.status = PStatus.success ∧ o.completedAt = true
      · rw [if_pos hsc]
      · rw [if_neg hsc]
        have hex2 : ∃ o2 ∈ rest, o2.status = PStatus.success ∧ o2.completedAt = true := by
          rcases hex with ⟨o2, hm, hp⟩
          rcases List.mem_cons.mp hm with rfl | hmem
          · exact absurd hp hsc
          · exact ⟨o2, hmem, hp⟩
        have hrec := ih (fun x hx => hT x (List.mem_cons_of_mem o hx))
          (fun x hx => hG x (List.mem_cons_of_mem o hx)) hex2
        by_cases hc : o.status = PStatus.inProgress ∨
            (o.status = PStatus.failed ∧ elapsedSec o.t ≤ graceSec)
        · rw [if_pos hc]
          exact hrec
        · rw [if_neg hc]
          by_cases hfail : o.status = PStatus.failed
          · exact absurd (Or.inr ⟨hfail, hG o (List.mem_cons_self o rest) hfail⟩) hc
          · rw [if_neg hfail]
            exact hrec

/-- C5 witness: the spec scenario — `failed` at elapsed 5s (inside the
grace window), then succeeded-with-completedAt at elapsed 40s — ends in
completion, via the second half of the C5 theorem. -/
theorem c5_witness :
    pollLoop [Obs.mk 5000 PStatus.failed false, Obs.mk 40000 PStatus.success true]
      = PollResult.completed :=
  c5_theorem.2 [Obs.mk 5000 PStatus.failed false, Obs.mk 40000 PStatus.success true]
    (by decide) (by decide) (by decide)

/-- C6 counterexample: a trace that never reports
succeeded-with-completedAt need not end in the timeout error — readings
of `failed` at 0s (tolerated inside the grace window) and at 70s (past
the grace window, far below the 900s budget) make the loop throw the
backup-failed error instead. -/
theorem c6_counterexample :
    pollLoop [Obs.mk 0 PStatus.failed false, Obs.mk 70000 PStatus.failed false]
        = PollResult.backupFailed
    ∧ PollResult.backupFailed ≠ PollResult.timedOut
    ∧ (∀ o ∈ [Obs.mk 0 PStatus.failed false, Obs.mk 70000 PStatus.failed false],
        ¬(o.status = PStatus.success ∧ o.completedAt = true)) := by
  decide

/-- C6 (amended): the timeout error is never raised while every reading
is still inside the 900s budget, and a trace that never reports
succeeded-with-completedAt AND never reports `failed` past the grace
window ends with the timeout error as soon as some reading arrives past
the budget. -/
theorem c6_theorem :
    (∀ trace : List Obs, (∀ o ∈ trace, o.t ≤ pollTimeoutMs) →
        pollLoop trace ≠ PollResult.timedOut)
    ∧ (∀ trace : List Obs,
        (∀ o ∈ trace, ¬(o.status = PStatus.success ∧ o.completedAt = true)) →
        (∀ o ∈ trace, o.status = PStatus.failed → elapsedSec o.t ≤ graceSec) →
        (∃ o ∈ trace, pollTimeoutMs < o.t) →
        pollLoop trace = PollResult.timedOut) := by
  constructor
  · intro trace
    induction trace with
    | nil =>
      intro _ h
      simp [pollLoop] at h
    | cons o rest ih =>
      intro hT h
      have hto : ¬ pollTimeoutMs < o.t := not_lt.mpr (hT o (List.mem_cons_self o rest))
      simp only [pollLoop] at h
      rw [if_neg hto] at h
      split_ifs at h with h2 h3 h4
      · exact ih (fun x hx => hT x (List.mem_cons_of_mem o hx)) h
      · exact ih (fun x hx => hT x (List.mem_cons_of_mem o hx)) h
  · intro trace
    induction trace with
    | nil =>
      intro _ _ hex
      simp at hex
    | cons o rest ih =>
      intro hS hG hex
      simp only [pollLoop]
      by_cases hto : pollTimeoutMs < o.t
      · rw [if_pos hto]
      · rw [if_neg hto]
        have hex2 : ∃ o2 ∈ rest, pollTimeoutMs < o2.t := by
          rcases hex with ⟨o2, hm, hp⟩
          rcases List.mem_cons.mp hm with rfl | hmem
          · exact absurd hp hto
          · exact ⟨o2, hmem, hp⟩
        have hrec := ih (fun x hx => hS x (List.mem_cons_of_mem o hx))
          (fun x hx => hG x (List.mem_cons_of_mem o hx)) hex2
        have hsc : ¬(o.status = PStatus.success ∧ o.completedAt = true) :=
          hS o (List.mem_cons_self o rest)
        rw [if_neg hsc]
        by_cases hc : o.status = PStatus.inProgress ∨
            (o.status = PStatus.failed ∧ elapsedSec o.t ≤ graceSec)
        · rw [if_pos hc]
          exact hrec
        · rw [if_neg hc]
          by_cases hfail : o.status = PStatus.failed
          · exact absurd (Or.inr ⟨hfail, hG o (List.mem_cons_self o rest) hfail⟩) hc
          · rw [if_neg hfail]
            exact hrec

/-- C6 witness: the amended theorem applied to a pending-only trace whose
readings stay inside the budget (no timeout raised) and to a pending-only
trace whose second reading exceeds the 900s budget (timeout raised). -/
theorem c6_witness :
    pollLoop [Obs.mk 1000 PStatus.inProgress false] ≠ PollResult.timedOut
    ∧ pollLoop [Obs.mk 1000 PStatus.inProgress false, Obs.mk 900001 PStatus.inProgress false]
        = PollResult.timedOut :=
  ⟨c6_theorem.1 [Obs.mk 1000 PStatus.inProgress false] (by decide),
    c6_theorem.2 [Obs.mk 1000 PStatus.inProgress false, Obs.mk 900001 PStatus.inProgress false]
      (by decide) (by decide) (by decide)⟩

/-- C7 counterexample: a reading of `is_successful = true` with
`completed_at` missing matches no branch of the loop body, so the loop
issues the next status read immediately, with no sleep between the two
consecutive reads. -/
theorem c7_counterexample :
    pollEvents [Obs.mk 0 PStatus.success false, Obs.mk 100 PStatus.success false]
        = [PEvent.read 0, PEvent.read 100]
    ∧ noAdjacentReads
        (pollEvents [Obs.mk 0 PStatus.success false, Obs.mk 100 PStatus.success false])
        = false := by
  decide

/-- Skipping a leading sleep does not affect read adjacency. -/
theorem noAdjacentReads_sleep_cons (l : List PEvent) :
    noAdjacentReads (PEvent.sleep :: l) = noAdjacentReads l := by
  cases l with
  | nil => rfl
  | cons b rest => simp [noAdjacentReads, isRead]

/-- A read followed by a sleep never forms an adjacent read pair. -/
theorem noAdjacentReads_read_sleep (t : Nat) (l : List PEvent) :
    noAdjacentReads (PEvent.read t :: PEvent.sleep :: l) = noAdjacentReads l := by
  simp [noAdjacentReads, isRead, noAdjacentReads_sleep_cons]

/-- C7 (amended): on every trace with no succeeded-without-completedAt
reading, the loop sleeps the fixed poll interval between any two
consecutive status reads; the immediate re-read arises only from the
unhandled succeeded-without-completedAt response. -/
theorem c7_theorem : ∀ trace : List Obs,
    (∀ o ∈ trace, ¬(o.status = PStatus.success ∧ o.completedAt = false)) →
    noAdjacentReads (pollEvents trace) = true := by
  intro trace
  induction trace with
  | nil =>
    intro _
    rfl
  | cons o rest ih =>
    intro hS
    simp only [pollEvents]
    split_ifs with h1 h2 h3 h4
    · rfl
    · rfl
    · rw [noAdjacentReads_read_sleep]
      exact ih (fun x hx => hS x (List.mem_cons_of_mem o hx))
    · rfl
    · exfalso
      cases hst : o.status with
      | inProgress => exact h3 (Or.inl hst)
      | success =>
        cases hca : o.completedAt with
        | false => exact hS o (List.mem_cons_self o rest) ⟨hst, hca⟩
        | true => exact h2 ⟨hst, hca⟩
      | failed => exact h4 hst

/-- C7 witness: the amended theorem applied to a trace of one pending
reading followed by a completed reading — every consecutive pair of reads
is separated by a sleep. -/
theorem c7_witness :
    noAdjacentReads
      (pollEvents [Obs.mk 0 PStatus.inProgress false, Obs.mk 10000 PStatus.success true])
      = true :=
  c7_theorem [Obs.mk 0 PStatus.inProgress false, Obs.mk 10000 PStatus.success true]
    (by decide)

/-- C8 counterexample: an upload at 2 PM IST on 29 November produces
`29-Nov-2PM.tar.gz`, not the two-digit `29-Nov-02PM.tar.gz` the claim
requires: the dayjs token `h` in the format string is the unpadded
12-hour value. -/
theorem c8_counterexample :
    mainFileName (WallClock.mk 29 11 2025 14 0 0) = "29-Nov-2PM.tar.gz"
    ∧ mainFileName (WallClock.mk 29 11 2025 14 0 0) ≠ "29-Nov-02PM.tar.gz"
    ∧ specMainNameClaimed (WallClock.mk 29 11 2025 14 0 0) = "29-Nov-02PM.tar.gz" := by
  decide

/-- For the values the 12-hour field can take, the unpadded rendering
agrees with the zero-padded one exactly on the two-digit hours. -/
theorem toString_eq_pad2_iff (n : Nat) (h1 : 1 ≤ n) (h2 : n ≤ 12) :
    (toString n = pad2 n ↔ 10 ≤ n) := by
  interval_cases n <;> simp [pad2] <;> decide

theorem hour12_ge_one (h : Nat) : 1 ≤ hour12 h := by
  unfold hour12
  split <;> omega

theorem hour12_le_twelve (h : Nat) : hour12 h ≤ 12 := by
  unfold hour12
  split
  · omega
  · have : h % 12 < 12 := Nat.mod_lt _ (by decide)
    omega

/-- C8 (amended): the primary-tier name follows the claimed grammar
except that the 12-hour field is unpadded — the name the code builds
agrees with the claimed two-digit grammar exactly when the 12-hour value
already has two digits (10, 11 or 12 o'clock), and differs on every other
hour. -/
theorem c8_theorem : ∀ c : WallClock,
    (mainFileName c = specMainNameClaimed c ↔ 10 ≤ hour12 c.hour) := by
  intro c
  have key : toString (hour12 c.hour) = pad2 (hour12 c.hour) ↔ 10 ≤ hour12 c.hour :=
    toString_eq_pad2_iff (hour12 c.hour) (hour12_ge_one c.hour) (hour12_le_twelve c.hour)
  constructor
  · intro heq
    apply key.mp
    have hd := congrArg String.data heq
    unfold mainFileName specMainNameClaimed at hd
    simp only [String.data_append, List.append_assoc] at hd
    have h5 := List.append_cancel_left (List.append_cancel_left
      (List.append_cancel_left (List.append_cancel_left hd)))
    have h6 : (toString (hour12 c.hour)).data = (pad2 (hour12 c.hour)).data :=
      List.append_cancel_right h5
    exact String.ext h6
  · intro h10
    have hts : toString (hour12 c.hour) = pad2 (hour12 c.hour) := key.mpr h10
    unfold mainFileName specMainNameClaimed
    rw [hts]

/-- C9 counterexample: in index.js the archive branch is not controlled
by any passed-in flag — `runBackupCycle` takes none — but by the
orchestrator reading the wall clock: the identical invocation enters the
archive branch at 23:59 IST and skips it one minute earlier. -/
theorem c9_counterexample :
    (runCycleIdx 23 59 true none).archiveEntered = true
    ∧ (runCycleIdx 23 58 true none).archiveEntered = false := by
  decide

/-- C9 (amended): the variant script does take the archive decision as an
explicit boolean parameter and enters the archive branch iff that flag is
set and the archive folder is configured; index.js instead computes the
decision inside the orchestrator from the IST wall clock
(`isDailyBackupTime`), entering the branch iff the clock reads 23:59. -/
theorem c9_theorem :
    (∀ (hour minute : Nat) (cfg : Bool),
        (runCycleIdx hour minute cfg none).archiveEntered = isDailyBackupTime hour minute)
    ∧ (∀ d cfg : Bool, (runCyclePartCore d cfg none).archiveEntered = (d && cfg)) := by
  have aux1 : ∀ (b cfg : Bool), (runCycleIdxCore b cfg none).archiveEntered = b := by decide
  have aux2 : ∀ (d cfg : Bool),
      (runCyclePartCore d cfg none).archiveEntered = (d && cfg) := by decide
  exact ⟨fun hour minute cfg => aux1 (isDailyBackupTime hour minute) cfg, aux2⟩

/-- C10: with the archive-tier folder id unconfigured, an archive-flagged
cycle of the variant script behaves exactly like a regular cycle on every
failure scenario (archive upload and archive rotation skipped, no error
raised by the skip, all remaining steps unchanged) and succeeds when
nothing else fails; likewise index.js at 23:59 performs no archive upload
or archive rotation, performs the same actions as at any other minute,
and still succeeds. -/
theorem c10_theorem :
    (∀ f : Option CStep, runCyclePartCore true false f = runCyclePartCore false false f)
    ∧ (runCyclePartCore true false none).success = true
    ∧ (∀ (hour minute : Nat) (f : Option CStep),
        Action.uploadDays ∉ (runCycleIdx hour minute false f).actions
        ∧ Action.rotateDays ∉ (runCycleIdx hour minute false f).actions
        ∧ (runCycleIdx hour minute false f).actions = (runCycleIdxCore false false f).actions)
    ∧ (runCycleIdx 23 59 false none).success = true := by
  have aux : ∀ (b : Bool) (f : Option CStep),
      Action.uploadDays ∉ (runCycleIdxCore b false f).actions
      ∧ Action.rotateDays ∉ (runCycleIdxCore b false f).actions
      ∧ (runCycleIdxCore b false f).actions = (runCycleIdxCore false false f).actions := by
    decide
  refine ⟨by decide, by decide, ?_, by decide⟩
  intro hour minute f
  exact aux (isDailyBackupTime hour minute) f

end PteroBackup
